import Mathlib

/-!
Shallow embedding of `src/manual_finder.py` (an interactive manual-finder
CLI) and proofs of the specification claims about it.

Python strings are modelled as Lean `String`, byte strings as `List Nat`,
and the ambient effects (HTTP requests, the filesystem, stdin/stdout, the
browser) as explicit parameters and explicit traces of actions, so that
every function of the script becomes a total, executable Lean function.
-/

namespace ManualFinder

/-! ### Python string primitives used by the script -/

/-- Python `str.lower()` (on the ASCII-range characters the script deals with). -/
def pyLower (s : String) : String := ⟨s.data.map Char.toLower⟩

/-- Python `needle in hay` for strings: `needle` occurs as a contiguous
substring of `hay`. -/
def listContains (needle : List Char) : List Char → Bool
  | [] => needle.isPrefixOf ([] : List Char)
  | c :: rest => needle.isPrefixOf (c :: rest) || listContains needle rest

/-- Python `needle in hay` on `String`. -/
def strIn (needle hay : String) : Bool := listContains needle.data hay.data

/-- Python `hay.endswith(suffix)`. -/
def strEndsWith (suffix hay : String) : Bool := suffix.data.isSuffixOf hay.data

/-- Python `hay.startswith(pre)`. -/
def strStartsWith (pre hay : String) : Bool := pre.data.isPrefixOf hay.data

/-- Python `s.replace(pat, rep)` for a single-character pattern (the only
shape the script uses: `" "→"_"`, `"("→""`, `")"→""`). -/
def replaceChar (pat : Char) (rep : String) (s : String) : String :=
  ⟨s.data.flatMap (fun x => if x = pat then rep.data else [x])⟩

/-! ### `urllib.parse` fragment: `urlparse(url).netloc` and `.path`, `unquote` -/

/-- Characters allowed in a URL scheme (`urllib.parse.scheme_chars`). -/
def schemeChar (c : Char) : Bool :=
  c.isAlpha || c.isDigit || c = '+' || c = '-' || c = '.'

/-- Split `cs` at the first character in `stops`: returns the part before it
and the rest (with the stop character still at the head of the rest). -/
def upTo (stops : List Char) : List Char → List Char × List Char
  | [] => ([], [])
  | c :: rest =>
    if c ∈ stops then ([], c :: rest)
    else
      let (pre, post) := upTo stops rest
      (c :: pre, post)

/-- `urllib.parse.urlsplit`'s scheme step: if the string has a `:` preceded
by a valid nonempty scheme, strip `scheme:`; otherwise leave it alone. -/
def stripScheme (url : String) : String :=
  let (pre, post) := upTo [':'] url.data
  match post with
  | ':' :: rest =>
    match pre with
    | [] => url
    | c :: cs => if c.isAlpha && cs.all schemeChar then ⟨rest⟩ else url
  | _ => url

/-- `urlparse(url).netloc`: after the scheme, if the remainder starts with
`//`, the netloc runs up to the next `/`, `?` or `#`. -/
def netloc (url : String) : String :=
  match (stripScheme url).data with
  | '/' :: '/' :: rest => ⟨(upTo ['/', '?', '#'] rest).1⟩
  | _ => ""

/-- The part of the URL after the netloc and before query/fragment
(`urlsplit(url).path`). -/
def urlSplitPath (url : String) : String :=
  let afterScheme := (stripScheme url).data
  let afterNetloc :=
    match afterScheme with
    | '/' :: '/' :: rest => (upTo ['/', '?', '#'] rest).2
    | other => other
  ⟨(upTo ['#'] ((upTo ['?'] afterNetloc).1)).1⟩

/-- `urlparse`'s `_splitparams`: drop a `;params` suffix of the last path
segment, so that `urlparse(url).path` matches CPython. -/
def splitParams (path : String) : String :=
  let lastSeg := (path.data.reverse.takeWhile (fun c => c ≠ '/')).reverse
  let stem := path.data.take (path.data.length - lastSeg.length)
  ⟨stem ++ (upTo [';'] lastSeg).1⟩

/-- `urlparse(url).path`. -/
def urlPath (url : String) : String := splitParams (urlSplitPath url)

/-- `os.path.basename` (POSIX: everything after the last `/`). -/
def basename (p : String) : String :=
  ⟨(p.data.reverse.takeWhile (fun c => c ≠ '/')).reverse⟩

/-- Hex digit value of a character, if it is one. -/
def hexVal (c : Char) : Option Nat :=
  if '0' ≤ c ∧ c ≤ '9' then some (c.toNat - '0'.toNat)
  else if 'a' ≤ c ∧ c ≤ 'f' then some (c.toNat - 'a'.toNat + 10)
  else if 'A' ≤ c ∧ c ≤ 'F' then some (c.toNat - 'A'.toNat + 10)
  else none

/-- `urllib.parse.unquote`: decode `%XX` escapes, leaving malformed escapes
untouched.  Each decoded byte is modelled as the character of its code point
(faithful for the single-byte escapes the claims exercise; a multi-byte
UTF-8 escape sequence decodes here byte by byte). -/
def unquoteList : List Char → List Char
  | [] => []
  | '%' :: h1 :: h2 :: rest2 =>
    match hexVal h1, hexVal h2 with
    | some v1, some v2 => Char.ofNat (16 * v1 + v2) :: unquoteList rest2
    | _, _ => '%' :: unquoteList (h1 :: h2 :: rest2)
  | c :: rest => c :: unquoteList rest

/-- `urllib.parse.unquote` on `String`. -/
def unquote (s : String) : String := ⟨unquoteList s.data⟩

/-! ### The scorer: `TRUSTED_DOMAINS` and `domain_score` -/

/-- `TRUSTED_DOMAINS` from `manual_finder.py` line 14. -/
def TRUSTED_DOMAINS : List String :=
  [".trane.com", ".carrier.com", ".daikin.com", ".york.com", ".lg.com"]

/-- `domain_score(url, make)` (lines 22–29): `+3` when the netloc contains
any trusted-domain entry as a substring (`manuf in domain`, case-sensitive),
`+2` when the lowercased make is a substring of the lowercased netloc. -/
def domain_score (url make : String) : Nat :=
  let domain := netloc url
  let score : Nat := 0
  let score := if TRUSTED_DOMAINS.any (fun manuf => strIn manuf domain) then score + 3 else score
  let score := if strIn (pyLower make) (pyLower domain) then score + 2 else score
  score

/-- Modelled from the spec's words for comparison with `domain_score`:
"+3 if URL's host matches any of a fixed trusted-domain allowlist
(suffix match)", the make bonus unchanged. -/
def domain_score_suffixSpec (url make : String) : Nat :=
  let domain := netloc url
  (if TRUSTED_DOMAINS.any (fun manuf => strEndsWith manuf domain) then 3 else 0) +
    (if strIn (pyLower make) (pyLower domain) then 2 else 0)

/-! ### `is_valid_pdf` -/

/-- The four magic bytes `b"%PDF"`. -/
def pdfMagic : List Nat := [37, 80, 68, 70]

/-- A file on disk: `none` when `open` raises (no such file), otherwise the
byte contents. -/
def FileContents := Option (List Nat)

/-- `f.read(4)`: up to four bytes from the front. -/
def read4 (bs : List Nat) : List Nat := bs.take 4

/-- `is_valid_pdf(path)` (lines 49–54): the first four bytes must equal
`b"%PDF"`; any exception (e.g. missing file) yields `False`. -/
def is_valid_pdf : Option (List Nat) → Bool
  | none => false
  | some bs => read4 bs == pdfMagic

/-! ### `difflib.SequenceMatcher` (as called by `file_score`)

`file_score` calls `difflib.SequenceMatcher(None, a, b).ratio()`.  The model
below follows CPython's difflib with `isjunk=None` on inputs where the
`autojunk` popularity heuristic is inactive (it only triggers for
`len(b) >= 200`): `find_longest_match` returns the longest matching block
of the window, choosing — exactly as difflib's dynamic program does — the
block with the smallest start in `a` and then the smallest start in `b`
among the maximal ones; `get_matching_blocks` recurses on the windows to
the left and right of that block and appends the `(la, lb, 0)` terminator;
`ratio` is `2*M/T` where `M` is the total size of the matching blocks and
`T` the sum of the lengths (`1.0` when `T = 0`). -/

/-- Length of the run of equal characters of `a` and `b` starting at
`(i, j)` and staying inside the window bounds `ahi`/`bhi`. -/
def runLen (a b : List Char) (ahi bhi : Nat) (i j : Nat) : Nat :=
  if h : i < ahi ∧ j < bhi ∧ i < a.length ∧ j < b.length ∧ a.getD i ' ' = b.getD j ' ' then
    runLen a b ahi bhi (i + 1) (j + 1) + 1
  else 0
termination_by ahi - i

/-- Scan the candidate starts in order, keeping the first block that
strictly improves on the best size so far (difflib updates its best match
only on `k > bestsize`). -/
def flmGo (a b : List Char) (ahi bhi : Nat) :
    List (Nat × Nat) → Nat × Nat × Nat → Nat × Nat × Nat
  | [], best => best
  | (i, j) :: rest, best =>
    if best.2.2 < runLen a b ahi bhi i j then
      flmGo a b ahi bhi rest (i, j, runLen a b ahi bhi i j)
    else flmGo a b ahi bhi rest best

/-- All window starts `(i, j)`, `i` ascending and then `j` ascending. -/
def candidatePairs (alo ahi blo bhi : Nat) : List (Nat × Nat) :=
  (List.range' alo (ahi - alo)).flatMap fun i =>
    (List.range' blo (bhi - blo)).map fun j => (i, j)

/-- `SequenceMatcher.find_longest_match(alo, ahi, blo, bhi)`: the triple
`(besti, bestj, bestsize)`, initialised to `(alo, blo, 0)`. -/
def find_longest_match (a b : List Char) (alo ahi blo bhi : Nat) : Nat × Nat × Nat :=
  flmGo a b ahi bhi (candidatePairs alo ahi blo bhi) (alo, blo, 0)

/-- The block `t` lies inside the window `[alo, ahi) × [blo, bhi)`. -/
def inWindow (alo ahi blo bhi : Nat) (t : Nat × Nat × Nat) : Prop :=
  alo ≤ t.1 ∧ t.1 + t.2.2 ≤ ahi ∧ blo ≤ t.2.1 ∧ t.2.1 + t.2.2 ≤ bhi

theorem runLen_le_left (a b : List Char) (ahi bhi : Nat) (i j : Nat) :
    runLen a b ahi bhi i j ≤ ahi - i := by
  rw [runLen]
  split
  · rename_i h
    have ih := runLen_le_left a b ahi bhi (i + 1) (j + 1)
    omega
  · omega
termination_by ahi - i

theorem runLen_le_right (a b : List Char) (ahi bhi : Nat) (i j : Nat) :
    runLen a b ahi bhi i j ≤ bhi - j := by
  rw [runLen]
  split
  · rename_i h
    have ih := runLen_le_right a b ahi bhi (i + 1) (j + 1)
    omega
  · omega
termination_by ahi - i

theorem flmGo_valid (a b : List Char) (alo ahi blo bhi : Nat) :
    ∀ (l : List (Nat × Nat)) (best : Nat × Nat × Nat),
      (∀ p ∈ l, alo ≤ p.1 ∧ p.1 ≤ ahi ∧ blo ≤ p.2 ∧ p.2 ≤ bhi) →
      (0 < best.2.2 → inWindow alo ahi blo bhi best) →
      0 < (flmGo a b ahi bhi l best).2.2 →
      inWindow alo ahi blo bhi (flmGo a b ahi bhi l best)
  | [], best, _, hbest, hpos => hbest hpos
  | (i, j) :: rest, best, hl, hbest, hpos => by
    rw [flmGo] at hpos ⊢
    have hij : alo ≤ i ∧ i ≤ ahi ∧ blo ≤ j ∧ j ≤ bhi := hl (i, j) (List.mem_cons_self _ _)
    have hrest : ∀ p ∈ rest, alo ≤ p.1 ∧ p.1 ≤ ahi ∧ blo ≤ p.2 ∧ p.2 ≤ bhi :=
      fun p hp => hl p (List.mem_cons_of_mem _ hp)
    by_cases hc : best.2.2 < runLen a b ahi bhi i j
    · rw [if_pos hc] at hpos ⊢
      refine flmGo_valid a b alo ahi blo bhi rest _ hrest (fun _ => ?_) hpos
      have h1 := runLen_le_left a b ahi bhi i j
      have h2 := runLen_le_right a b ahi bhi i j
      show alo ≤ i ∧ i + runLen a b ahi bhi i j ≤ ahi ∧
        blo ≤ j ∧ j + runLen a b ahi bhi i j ≤ bhi
      omega
    · rw [if_neg hc] at hpos ⊢
      exact flmGo_valid a b alo ahi blo bhi rest best hrest hbest hpos

theorem find_longest_match_valid (a b : List Char) (alo ahi blo bhi : Nat)
    (h : 0 < (find_longest_match a b alo ahi blo bhi).2.2) :
    inWindow alo ahi blo bhi (find_longest_match a b alo ahi blo bhi) := by
  refine flmGo_valid a b alo ahi blo bhi _ _ ?_ ?_ h
  · intro p hp
    simp only [candidatePairs, List.mem_flatMap, List.mem_map, List.mem_range'] at hp
    obtain ⟨i, hi, j, hj, rfl⟩ := hp
    constructor
    · omega
    · refine ⟨by omega, by omega, by omega⟩
  · intro hpos
    simp at hpos

/-- `SequenceMatcher.get_matching_blocks`' recursion: find the longest
matching block of the window and, when it is nonempty, recurse on the
windows to its left and to its right. -/
def get_matching_blocks_rec (a b : List Char) (alo ahi blo bhi : Nat) :
    List (Nat × Nat × Nat) :=
  if h : 0 < (find_longest_match a b alo ahi blo bhi).2.2 then
    get_matching_blocks_rec a b alo (find_longest_match a b alo ahi blo bhi).1 blo
        (find_longest_match a b alo ahi blo bhi).2.1 ++
      find_longest_match a b alo ahi blo bhi ::
        get_matching_blocks_rec a b
          ((find_longest_match a b alo ahi blo bhi).1 +
            (find_longest_match a b alo ahi blo bhi).2.2) ahi
          ((find_longest_match a b alo ahi blo bhi).2.1 +
            (find_longest_match a b alo ahi blo bhi).2.2) bhi
  else []
termination_by ahi - alo
decreasing_by
  · have hv := find_longest_match_valid a b alo ahi blo bhi h
    obtain ⟨h1, h2, h3, h4⟩ := hv
    omega
  · have hv := find_longest_match_valid a b alo ahi blo bhi h
    obtain ⟨h1, h2, h3, h4⟩ := hv
    omega

/-- `SequenceMatcher.get_matching_blocks()`, with the `(la, lb, 0)`
terminator.  (difflib also merges adjacent blocks; merging preserves the
total matched count, which is all `ratio` reads.) -/
def get_matching_blocks (a b : List Char) : List (Nat × Nat × Nat) :=
  get_matching_blocks_rec a b 0 a.length 0 b.length ++ [(a.length, b.length, 0)]

/-- Total size of a list of matching blocks (`sum(size for _, _, size in blocks)`). -/
def sumK (l : List (Nat × Nat × Nat)) : Nat := (l.map fun t => t.2.2).sum

/-- `SequenceMatcher.ratio()`: `2*M/T`, or `1.0` when `T = 0`
(`difflib._calculate_ratio`). -/
def ratio (a b : List Char) : ℚ :=
  if a.length + b.length = 0 then 1
  else 2 * (sumK (get_matching_blocks a b) : ℚ) / (a.length + b.length)

/-- `file_score(title, make, model)` (lines 31–33): the `SequenceMatcher`
ratio of the lowercased `"make model"` against the lowercased title. -/
def file_score (title make model : String) : ℚ :=
  ratio (pyLower (make ++ " " ++ model)).data (pyLower title).data

theorem gmb_rec_sum_le (a b : List Char) :
    ∀ (n alo ahi blo bhi : Nat), ahi - alo ≤ n →
      sumK (get_matching_blocks_rec a b alo ahi blo bhi) ≤ ahi - alo ∧
      sumK (get_matching_blocks_rec a b alo ahi blo bhi) ≤ bhi - blo := by
  intro n
  induction n with
  | zero =>
    intro alo ahi blo bhi hn
    rw [get_matching_blocks_rec]
    split
    · rename_i h
      obtain ⟨h1, h2, h3, h4⟩ := find_longest_match_valid a b alo ahi blo bhi h
      omega
    · simp [sumK]
  | succ n ih =>
    intro alo ahi blo bhi hn
    rw [get_matching_blocks_rec]
    split
    · rename_i h
      obtain ⟨h1, h2, h3, h4⟩ := find_longest_match_valid a b alo ahi blo bhi h
      have ihL := ih alo (find_longest_match a b alo ahi blo bhi).1 blo
        (find_longest_match a b alo ahi blo bhi).2.1 (by omega)
      have ihR := ih
        ((find_longest_match a b alo ahi blo bhi).1 +
          (find_longest_match a b alo ahi blo bhi).2.2) ahi
        ((find_longest_match a b alo ahi blo bhi).2.1 +
          (find_longest_match a b alo ahi blo bhi).2.2) bhi (by omega)
      simp only [sumK, List.map_append, List.sum_append, List.map_cons,
        List.sum_cons] at ihL ihR ⊢
      omega
    · simp [sumK]

theorem sumK_get_matching_blocks_le (a b : List Char) :
    sumK (get_matching_blocks a b) ≤ a.length ∧
    sumK (get_matching_blocks a b) ≤ b.length := by
  have h := gmb_rec_sum_le a b a.length 0 a.length 0 b.length (by omega)
  simp only [get_matching_blocks, sumK, List.map_append, List.sum_append,
    List.map_cons, List.sum_cons, List.map_nil, List.sum_nil] at h ⊢
  omega

theorem ratio_nonneg (a b : List Char) : 0 ≤ ratio a b := by
  unfold ratio
  split
  · norm_num
  · positivity

theorem ratio_le_one (a b : List Char) : ratio a b ≤ 1 := by
  unfold ratio
  split
  · norm_num
  · rename_i h
    have hs := sumK_get_matching_blocks_le a b
    have hpos : (0 : ℚ) < (a.length : ℚ) + (b.length : ℚ) := by
      have hn : 0 < a.length + b.length := Nat.pos_of_ne_zero h
      exact_mod_cast hn
    rw [div_le_one hpos]
    have h2 : 2 * sumK (get_matching_blocks a b) ≤ a.length + b.length := by omega
    exact_mod_cast h2

/-! ### Effects

The script's side effects (prints, prompts, HTTP requests, file writes and
deletes, opening the browser) are reified as a trace of `Action`s; the user
types the lines of an explicit input stream, popped by `popInput`; the
network is an oracle parameter. -/

inductive PromptKind
  | download
  | retry
  | browser
  | makeInput
  | modelInput
  deriving DecidableEq, Repr

inductive Action
  | printMsg (s : String)
  | prompt (k : PromptKind)
  | searchCall (query : String)
  | httpHead (url : String)
  | httpGet (url : String)
  | writeFile (name : String)
  | deleteFile (name : String)
  | browserOpen (url : String)
  deriving DecidableEq, Repr

/-- `input(...)`: pop the next line of the user-input stream (an exhausted
stream yields `""`). -/
def popInput : List String → String × List String
  | [] => ("", [])
  | s :: rest => (s, rest)

/-! ### `is_accessible_url` -/

/-- `is_accessible_url(url)` (lines 35–47), with the outcome of the
`requests.head` probe — a status code, or the message of the raised
exception — supplied explicitly.  Exceptions are caught and turned into a
reason string, never propagated. -/
def is_accessible_url (probe : Except String Nat) : Bool × Option String :=
  match probe with
  | .ok code =>
    if code = 200 then (true, none)
    else if code = 403 then (false, some "🔒 Access forbidden (login required)")
    else if code = 404 then (false, some "❌ File not found (404)")
    else (false, some ("⚠️ HTTP " ++ toString code ++ " returned"))
  | .error e => (false, some ("⚠️ Error checking link: " ++ e))

/-! ### `download_file` -/

/-- `OUTPUT_DIR` on a non-Windows host (line 20); the Windows branch of
lines 17–18 picks `cwd/downloads` instead. -/
def OUTPUT_DIR : String := "/mnt/data"

/-- The filename sanitisation of line 64:
`filename.replace(" ", "_").replace("(", "").replace(")", "")`. -/
def sanitizeFilename (filename : String) : String :=
  replaceChar ')' "" (replaceChar '(' "" (replaceChar ' ' "_" filename))

/-- Modelled from the spec's words for comparison with `sanitizeFilename`:
"sanitizes by stripping spaces and parentheses" — spaces removed outright. -/
def sanitizeFilename_stripSpec (filename : String) : String :=
  replaceChar ')' "" (replaceChar '(' "" (replaceChar ' ' "" filename))

/-- `offer_open_in_browser(url)` (lines 80–84): prompt, and open the
browser on a (stripped, lowercased) "y". -/
def offer_open_in_browser (url : String) (inputs : List String) :
    List Action × List String :=
  let (answer, rest) := popInput inputs
  if pyLower answer.trim = "y" then
    ([.prompt .browser, .browserOpen url, .printMsg "🌐 Browser opened."], rest)
  else ([.prompt .browser], rest)

structure DownloadResult where
  /-- the function's return value -/
  ret : String
  /-- filename written into the output directory, if the write was reached -/
  wrote : Option String
  /-- filename still on disk when the function returns -/
  saved : Option String
  /-- trace of side effects -/
  actions : List Action
  /-- remaining user-input stream -/
  inputs : List String
  deriving Repr

/-- `download_file(url, filename=None)` (lines 56–78).  The outcome of the
streamed `requests.get` — the body of a 2xx response, or the message of
the exception raised by the request or by `raise_for_status` — is supplied
explicitly; the whole body is caught by the `except` of line 77.  The
`content_type` binding of line 60 is dead code and not modelled.  A falsy
(`None` or empty) `filename` argument is replaced by the basename of the
URL path (lines 61–62), the falsy-or default `"manual.pdf"` and the
URL-decoding are applied (line 63), and the result is sanitised (line 64)
before the write. -/
def download_file (resp : Except String (List Nat)) (url : String)
    (filename : Option String) (inputs : List String) : DownloadResult :=
  match resp with
  | .error e =>
    { ret := "⚠️ Download failed: " ++ e, wrote := none, saved := none,
      actions := [.httpGet url], inputs := inputs }
  | .ok body =>
    let fname0 := match filename with
      | some f => if f = "" then basename (urlPath url) else f
      | none => basename (urlPath url)
    let fname := unquote (if fname0 = "" then "manual.pdf" else fname0)
    let safe_filename := sanitizeFilename fname
    if is_valid_pdf (some body) then
      { ret := OUTPUT_DIR ++ "/" ++ safe_filename,
        wrote := some safe_filename, saved := some safe_filename,
        actions := [.httpGet url, .writeFile safe_filename], inputs := inputs }
    else
      let (brActions, rest) := offer_open_in_browser url inputs
      { ret := "⚠️ Invalid PDF content", wrote := some safe_filename, saved := none,
        actions := [.httpGet url, .writeFile safe_filename,
            .printMsg "❌ File downloaded but is NOT a valid PDF (likely a web page).",
            .deleteFile safe_filename] ++ brActions,
        inputs := rest }

/-! ### `find_manual` -/

/-- A search result dictionary: the script reads its `href`, `url` and
`title` keys. -/
structure SearchResult where
  href : Option String
  url : Option String
  title : Option String

/-- `r.get("href") or r.get("url")` (line 110) combined with the
`if not url: continue` guard of lines 112–113: the URL of a result when it
is truthy. -/
def resultUrl (r : SearchResult) : Option String :=
  let raw := match r.href with
    | some h => if h = "" then r.url else some h
    | none => r.url
  match raw with
  | some u => if u = "" then none else some u
  | none => none

/-- `r.get("title") or ""` (line 111). -/
def resultTitle (r : SearchResult) : String := (r.title).getD ""

/-- The scoring loop of lines 108–118: keep the accessible candidates with
their combined `file_score + domain_score`. -/
def scoreResults (make model : String) (probe : String → Except String Nat) :
    List SearchResult → List (ℚ × String × String) × List Action
  | [] => ([], [])
  | r :: rest =>
    let (scoredRest, actsRest) := scoreResults make model probe rest
    match resultUrl r with
    | none => (scoredRest, actsRest)
    | some url =>
      if (is_accessible_url (probe url)).1 then
        ((file_score (resultTitle r) make model + (domain_score url make : ℚ),
            resultTitle r, url) :: scoredRest,
          .httpHead url :: actsRest)
      else (scoredRest, .httpHead url :: actsRest)

/-- Strict descending comparison on the `(score, title, url)` tuples, as
Python compares them. -/
def tripleGtB (x y : ℚ × String × String) : Bool :=
  decide (y.1 < x.1) ||
    (decide (x.1 = y.1) &&
      (decide (y.2.1 < x.2.1) ||
        (decide (x.2.1 = y.2.1) && decide (y.2.2 < x.2.2))))

/-- `scored.sort(reverse=True)` followed by `scored[0]` (lines 138–139):
the first maximal tuple. -/
def bestOf (h : ℚ × String × String) (t : List (ℚ × String × String)) :
    ℚ × String × String :=
  t.foldl (fun b x => if tripleGtB x b then x else b) h

inductive StepResult
  | ret (s : String)
  | retry
  deriving DecidableEq, Repr

/-- Lines 140–165 of `find_manual`: given the best candidate, on a close
match (`best_score > 0.5`) prompt to confirm the download — downloading on
"y", printing the link and offering the browser otherwise — and on a weak
match skip the download prompt and always offer the browser fallback. -/
def handleBest (resp : String → Except String (List Nat))
    (best_score : ℚ) (best_title best_url : String) (inputs : List String) :
    List Action × StepResult × List String :=
  let banner : List Action :=
    [.printMsg ("✅ Best match: " ++ best_title ++ "\n🔗 " ++ best_url ++ "\n")]
  if best_score > 0.5 then
    let (confirm, in1) := popInput inputs
    if pyLower confirm = "y" then
      let d := download_file (resp best_url) best_url none in1
      if strStartsWith "⚠️" d.ret then
        let (retryAns, in2) := popInput d.inputs
        if pyLower retryAns = "y" then
          (banner ++ [.prompt .download] ++ d.actions ++ [.prompt .retry], .retry, in2)
        else
          (banner ++ [.prompt .download] ++ d.actions ++ [.prompt .retry],
            .ret d.ret, in2)
      else
        (banner ++ [.prompt .download] ++ d.actions ++
            [.printMsg ("✅ File saved to: " ++ d.ret)],
          .ret d.ret, d.inputs)
    else
      let (brActs, in2) := offer_open_in_browser best_url in1
      (banner ++ [.prompt .download,
          .printMsg "📎 Here's the link to check it yourself:",
          .printMsg best_url] ++ brActs,
        .ret best_url, in2)
  else
    let (brActs, in1) := offer_open_in_browser best_url inputs
    (banner ++ [.printMsg "⚠️ Could not find an exact match, but this might help:",
        .printMsg best_url] ++ brActs,
      .ret best_url, in1)

/-- Lines 121–134: the fallback scan over the raw results when no candidate
was accessible.  The `continue` of line 133 continues the `for` loop, not
the enclosing `while`, so a "y" answer merely moves on to the next result;
`none` here means the `for` loop fell through to lines 135–136. -/
def blockedScan (probe : String → Except String Nat) :
    List SearchResult → List String → List Action × Option String × List String
  | [], inputs => ([], none, inputs)
  | r :: rest, inputs =>
    match resultUrl r with
    | none => blockedScan probe rest inputs
    | some url =>
      let (acc, reason) := is_accessible_url (probe url)
      if acc then
        let (acts2, res2, in2) := blockedScan probe rest inputs
        (.httpHead url :: acts2, res2, in2)
      else
        let msgs : List Action := [.httpHead url,
          .printMsg ("⚠️ Closest result was blocked: " ++ resultTitle r ++ "\n" ++
            reason.getD ""),
          .printMsg ("🔗 Raw URL: " ++ url), .prompt .retry]
        let (ans, in1) := popInput inputs
        if pyLower ans = "y" then
          let (acts2, res2, in2) := blockedScan probe rest in1
          (msgs ++ acts2, res2, in2)
        else (msgs, some "⚠️ No accessible manuals found. Exiting.", in1)

/-- `input(...).strip()` for a missing make/model (lines 88–91). -/
def readIfEmpty (k : PromptKind) (v : String) (inputs : List String) :
    String × List String × List Action :=
  if v = "" then
    let (s, rest) := popInput inputs
    (s.trim, rest, [.prompt k])
  else (v, inputs, [])

/-- One iteration of `find_manual`'s `while True` body (lines 87–165), with
the search, probe and download oracles supplied. -/
def find_manual_step (make model : String)
    (search : String → List SearchResult)
    (probe : String → Except String Nat)
    (resp : String → Except String (List Nat))
    (inputs : List String) : List Action × StepResult × List String :=
  let (make, in0, actsM) := readIfEmpty .makeInput make inputs
  let (model, in1, actsMo) := readIfEmpty .modelInput model in0
  let query := make ++ " " ++ model ++ " operations and maintenance manual"
  let results := search query
  let searchActs : List Action := actsM ++ actsMo ++
    [.printMsg ("\n🔎 Searching for: " ++ query ++ "\n"), .searchCall query]
  if results.isEmpty then
    let (ans, in2) := popInput in1
    if pyLower ans = "y" then
      (searchActs ++ [.printMsg "❌ No results found.", .prompt .retry], .retry, in2)
    else
      (searchActs ++ [.printMsg "❌ No results found.", .prompt .retry],
        .ret "❌ No results found.", in2)
  else
    let (scored, scoreActs) := scoreResults make model probe results
    match scored with
    | [] =>
      let (acts2, res2, in2) := blockedScan probe results in1
      match res2 with
      | some s => (searchActs ++ scoreActs ++ acts2, .ret s, in2)
      | none =>
        (searchActs ++ scoreActs ++ acts2 ++
            [.printMsg "❌ No accessible manuals found."],
          .ret "❌ No accessible manuals found.", in2)
    | s :: srest =>
      let best := bestOf s srest
      let (acts3, res3, in3) := handleBest resp best.1 best.2.1 best.2.2 in1
      (searchActs ++ scoreActs ++ acts3, res3, in3)

/-- `find_manual(make, model)` (lines 86–165): iterate the loop body,
resetting make and model to empty (line 104/132/151 set them to `None`) on
a retry.  `fuel` bounds the number of iterations — the Python loop can run
unboundedly when the user keeps answering "y" — and `none` means the fuel
ran out. -/
def find_manual (fuel : Nat) (make model : String)
    (search : String → List SearchResult)
    (probe : String → Except String Nat)
    (resp : String → Except String (List Nat))
    (inputs : List String) : List Action × Option String :=
  match fuel with
  | 0 => ([], none)
  | fuel + 1 =>
    let (acts, res, in1) := find_manual_step make model search probe resp inputs
    match res with
    | .ret s => (acts, some s)
    | .retry =>
      let (acts2, r2) := find_manual fuel "" "" search probe resp in1
      (acts ++ acts2, r2)

/-! ### Helper lemmas -/

theorem prompt_browser_mem_offer (url : String) (inputs : List String) :
    Action.prompt PromptKind.browser ∈ (offer_open_in_browser url inputs).1 := by
  cases inputs <;> simp only [offer_open_in_browser, popInput] <;> split <;> simp

theorem mem_replaceChar {d : Char} (pat : Char) (rep : String) (s : String)
    (hd : d ∈ (replaceChar pat rep s).data) :
    d ∈ rep.data ∨ (d ∈ s.data ∧ d ≠ pat) := by
  have hd' : d ∈ s.data.flatMap fun x => if x = pat then rep.data else [x] := hd
  rw [List.mem_flatMap] at hd'
  obtain ⟨x, hx, hdx⟩ := hd'
  by_cases hxp : x = pat
  · rw [if_pos hxp] at hdx
    exact Or.inl hdx
  · rw [if_neg hxp] at hdx
    simp only [List.mem_singleton] at hdx
    subst hdx
    exact Or.inr ⟨hx, hxp⟩

theorem sanitize_no_space (f : String) : ' ' ∉ (sanitizeFilename f).data := by
  intro h
  rcases mem_replaceChar _ _ _ h with h1 | ⟨h1, -⟩
  · simp at h1
  rcases mem_replaceChar _ _ _ h1 with h2 | ⟨h2, -⟩
  · simp at h2
  rcases mem_replaceChar _ _ _ h2 with h3 | ⟨-, h3⟩
  · simp at h3
  · exact h3 rfl

theorem sanitize_no_lparen (f : String) : '(' ∉ (sanitizeFilename f).data := by
  intro h
  rcases mem_replaceChar _ _ _ h with h1 | ⟨h1, -⟩
  · simp at h1
  rcases mem_replaceChar _ _ _ h1 with h2 | ⟨-, h2⟩
  · simp at h2
  · exact h2 rfl

theorem sanitize_no_rparen (f : String) : ')' ∉ (sanitizeFilename f).data := by
  intro h
  rcases mem_replaceChar _ _ _ h with h1 | ⟨-, h1⟩
  · simp at h1
  · exact h1 rfl

/-! ### The claims -/

/-- Claim C1 (amended): for every url and make, `domain_score` decomposes as
`3·[some trusted-domain entry occurs in the host as a substring] +
2·[the lowercased make occurs in the lowercased host]`; consequently a
trusted-domain match adds exactly 3, a make match exactly 2, both together 5
(the code tests substring containment, not the suffix match the original
claim states). -/
theorem C1_domain_score_decomposition (url make : String) :
    domain_score url make =
      3 * (if TRUSTED_DOMAINS.any (fun manuf => strIn manuf (netloc url)) then 1 else 0) +
      2 * (if strIn (pyLower make) (pyLower (netloc url)) then 1 else 0) := by
  unfold domain_score
  by_cases h1 : (TRUSTED_DOMAINS.any fun manuf => strIn manuf (netloc url)) = true <;>
    by_cases h2 : strIn (pyLower make) (pyLower (netloc url)) = true <;>
      simp [h1, h2]

/-- Claim C1, counterexample to the suffix-match reading: on a host that
contains `.trane.com` as a substring but not as a suffix, the code still
grants the +3 bonus, while the spec's suffix-match formula grants 0. -/
theorem C1_suffix_match_refuted :
    domain_score "http://a.trane.com.evil.net/x" "zzz" = 3 ∧
    domain_score_suffixSpec "http://a.trane.com.evil.net/x" "zzz" = 0 := by
  constructor <;> decide

/-- Claim C2: `is_valid_pdf` holds exactly when the first four bytes are
`%PDF`; in particular it is false for a missing file, an empty file, an
HTML page starting with `<htm`, and any file shorter than four bytes. -/
theorem C2_is_valid_pdf_iff :
    (∀ bs : List Nat, is_valid_pdf (some bs) = true ↔ bs.take 4 = pdfMagic) ∧
    is_valid_pdf none = false ∧
    is_valid_pdf (some []) = false ∧
    is_valid_pdf (some [60, 104, 116, 109]) = false ∧
    (∀ bs : List Nat, bs.length < 4 → is_valid_pdf (some bs) = false) := by
  refine ⟨?_, rfl, by decide, by decide, ?_⟩
  · intro bs
    simp [is_valid_pdf, read4]
  · intro bs h
    have hne : bs.take 4 ≠ pdfMagic := by
      intro heq
      have := congrArg List.length heq
      rw [List.length_take] at this
      simp [pdfMagic] at this
      omega
    simp [is_valid_pdf, read4, hne]

theorem C2_is_valid_pdf_iff_witness :
    ([37, 80] : List Nat).length < 4 ∧ is_valid_pdf (some [37, 80]) = false :=
  ⟨by decide, C2_is_valid_pdf_iff.2.2.2.2 [37, 80] (by decide)⟩

/-- Claim C4: `is_accessible_url` yields `(true, none)` on 200, `(false, …)`
with a reason naming forbidden access on 403, a reason containing "404" on
404, a generic reason containing the status code on any other status, and
on any exception a `(false, reason)` pair rather than a propagated
exception. -/
theorem C4_is_accessible_url_cases :
    is_accessible_url (.ok 200) = (true, none) ∧
    ((is_accessible_url (.ok 403)).1 = false ∧
      ∃ r, (is_accessible_url (.ok 403)).2 = some r ∧
        ∃ p s, p ++ "forbidden" ++ s = r) ∧
    ((is_accessible_url (.ok 404)).1 = false ∧
      ∃ r, (is_accessible_url (.ok 404)).2 = some r ∧
        ∃ p s, p ++ "404" ++ s = r) ∧
    (∀ code : Nat, code ≠ 200 → code ≠ 403 → code ≠ 404 →
      (is_accessible_url (.ok code)).1 = false ∧
      ∃ r, (is_accessible_url (.ok code)).2 = some r ∧
        ∃ p s, p ++ toString code ++ s = r) ∧
    (∀ e, is_accessible_url (.error e) =
      (false, some ("⚠️ Error checking link: " ++ e))) := by
  refine ⟨rfl, ⟨rfl, ?_⟩, ⟨rfl, ?_⟩, ?_, fun e => rfl⟩
  · exact ⟨_, rfl, "🔒 Access ", " (login required)", by decide⟩
  · exact ⟨_, rfl, "❌ File not found (", ")", by decide⟩
  · intro code h200 h403 h404
    refine ⟨?_, ?_⟩
    · simp [is_accessible_url, h200, h403, h404]
    · simp only [is_accessible_url, if_neg h200, if_neg h403, if_neg h404]
      exact ⟨_, rfl, "⚠️ HTTP ", " returned", rfl⟩

theorem C4_is_accessible_url_cases_witness :
    (500 : Nat) ≠ 200 ∧
    ((is_accessible_url (.ok 500)).1 = false ∧
      ∃ r, (is_accessible_url (.ok 500)).2 = some r ∧
        ∃ p s, p ++ toString (500 : Nat) ++ s = r) :=
  ⟨by decide,
    C4_is_accessible_url_cases.2.2.2.1 500 (by decide) (by decide) (by decide)⟩

/-- Claim C5: `file_score` is the `SequenceMatcher` similarity ratio of the
lowercased `"make model"` against the lowercased title, and always lies in
`[0, 1]`. -/
theorem C5_file_score_is_ratio_in_unit_interval (title make model : String) :
    file_score title make model =
      ratio (pyLower (make ++ " " ++ model)).data (pyLower title).data ∧
    0 ≤ file_score title make model ∧ file_score title make model ≤ 1 :=
  ⟨rfl, ratio_nonneg _ _, ratio_le_one _ _⟩

theorem download_prompt_not_mem_offer (url : String) (inputs : List String) :
    Action.prompt PromptKind.download ∉ (offer_open_in_browser url inputs).1 := by
  cases inputs <;> simp only [offer_open_in_browser, popInput] <;> split <;> simp

theorem download_file_ok_shape (url : String) (body : List Nat) (inputs : List String) :
    (download_file (.ok body) url none inputs).wrote =
      some (sanitizeFilename (unquote
        (if basename (urlPath url) = "" then "manual.pdf" else basename (urlPath url)))) ∧
    Action.writeFile (sanitizeFilename (unquote
        (if basename (urlPath url) = "" then "manual.pdf" else basename (urlPath url)))) ∈
      (download_file (.ok body) url none inputs).actions := by
  rcases hoff : offer_open_in_browser url inputs with ⟨brA, brR⟩
  by_cases hv : is_valid_pdf (some body) = true <;>
    constructor <;> simp [download_file, hv, hoff]

/-- Claim C3: when the HTTP download succeeds but the written file fails the
four-byte PDF signature check, `download_file` deletes the written file and
returns the failure sentinel, a string with a leading warning glyph that is
not a filesystem path. -/
theorem C3_download_file_invalid_pdf (url : String) (body : List Nat)
    (inputs : List String) (hbad : is_valid_pdf (some body) = false) :
    ∃ f, (download_file (.ok body) url none inputs).wrote = some f ∧
      Action.deleteFile f ∈ (download_file (.ok body) url none inputs).actions ∧
      (download_file (.ok body) url none inputs).saved = none ∧
      (download_file (.ok body) url none inputs).ret = "⚠️ Invalid PDF content" ∧
      strStartsWith "⚠️" (download_file (.ok body) url none inputs).ret = true ∧
      strStartsWith OUTPUT_DIR (download_file (.ok body) url none inputs).ret = false ∧
      strStartsWith "/" (download_file (.ok body) url none inputs).ret = false := by
  rcases hoff : offer_open_in_browser url inputs with ⟨brA, brR⟩
  have hret : (download_file (.ok body) url none inputs).ret = "⚠️ Invalid PDF content" := by
    simp [download_file, hbad, hoff]
  refine ⟨sanitizeFilename (unquote
      (if basename (urlPath url) = "" then "manual.pdf" else basename (urlPath url))),
    ?_, ?_, ?_, hret, ?_, ?_, ?_⟩
  · simp [download_file, hbad, hoff]
  · simp [download_file, hbad, hoff]
  · simp [download_file, hbad, hoff]
  · rw [hret]; decide
  · rw [hret]; decide
  · rw [hret]; decide

theorem C3_download_file_invalid_pdf_witness :
    is_valid_pdf (some [60, 104, 116, 109]) = false ∧
    ∃ f, (download_file (.ok [60, 104, 116, 109]) "http://x.com/a.pdf" none ["n"]).wrote =
        some f ∧
      Action.deleteFile f ∈
        (download_file (.ok [60, 104, 116, 109]) "http://x.com/a.pdf" none ["n"]).actions ∧
      (download_file (.ok [60, 104, 116, 109]) "http://x.com/a.pdf" none ["n"]).saved = none ∧
      (download_file (.ok [60, 104, 116, 109]) "http://x.com/a.pdf" none ["n"]).ret =
        "⚠️ Invalid PDF content" ∧
      strStartsWith "⚠️"
        (download_file (.ok [60, 104, 116, 109]) "http://x.com/a.pdf" none ["n"]).ret = true ∧
      strStartsWith OUTPUT_DIR
        (download_file (.ok [60, 104, 116, 109]) "http://x.com/a.pdf" none ["n"]).ret = false ∧
      strStartsWith "/"
        (download_file (.ok [60, 104, 116, 109]) "http://x.com/a.pdf" none ["n"]).ret = false :=
  ⟨by decide,
    C3_download_file_invalid_pdf "http://x.com/a.pdf" [60, 104, 116, 109] ["n"] (by decide)⟩

/-- Claim C6: in `find_manual`'s handling of the best candidate
(`handleBest`, lines 140–165), a best score above 0.5 leads to the
download-confirmation prompt — and on decline the link is printed, the
browser-open prompt is offered, and the link is returned — while a best
score at most 0.5 skips the download prompt entirely and always offers the
browser-open fallback. -/
theorem C6_close_match_threshold (resp : String → Except String (List Nat))
    (score : ℚ) (title url : String) (inputs : List String) :
    (score > (0.5 : ℚ) →
      Action.prompt PromptKind.download ∈ (handleBest resp score title url inputs).1) ∧
    (score > (0.5 : ℚ) → pyLower (popInput inputs).1 ≠ "y" →
      Action.printMsg url ∈ (handleBest resp score title url inputs).1 ∧
      Action.prompt PromptKind.browser ∈ (handleBest resp score title url inputs).1 ∧
      (handleBest resp score title url inputs).2.1 = StepResult.ret url) ∧
    (score ≤ (0.5 : ℚ) →
      Action.prompt PromptKind.download ∉ (handleBest resp score title url inputs).1 ∧
      Action.prompt PromptKind.browser ∈ (handleBest resp score title url inputs).1 ∧
      (handleBest resp score title url inputs).2.1 = StepResult.ret url) := by
  rcases hpi : popInput inputs with ⟨c, in1⟩
  refine ⟨?_, ?_, ?_⟩
  · intro hgt
    simp only [handleBest, if_pos hgt, hpi]
    by_cases hy : pyLower c = "y"
    · simp only [if_pos hy]
      rcases hr : popInput (download_file (resp url) url none in1).inputs with ⟨r2, i2⟩
      split <;> simp [hr] <;> split <;> simp
    · rcases hoff : offer_open_in_browser url in1 with ⟨brA, brR⟩
      simp [if_neg hy, hoff]
  · intro hgt hny
    have hny' : pyLower c ≠ "y" := hny
    rcases hoff : offer_open_in_browser url in1 with ⟨brA, brR⟩
    have hbr := prompt_browser_mem_offer url in1
    rw [hoff] at hbr
    simp [handleBest, if_pos hgt, hpi, if_neg hny', hoff, hbr]
  · intro hle
    have hngt : ¬(score > (0.5 : ℚ)) := not_lt.mpr hle
    rcases hoff : offer_open_in_browser url inputs with ⟨brA, brR⟩
    have hbr := prompt_browser_mem_offer url inputs
    have hnd := download_prompt_not_mem_offer url inputs
    rw [hoff] at hbr hnd
    simp [handleBest, if_neg hngt, hoff, hbr, hnd]

theorem C6_close_match_threshold_witness :
    ((1 : ℚ) > 0.5 ∧
      Action.prompt PromptKind.download ∈
        (handleBest (fun _ => .error "e") 1 "T" "http://x.com/m.pdf" ["n", "n"]).1) ∧
    (pyLower (popInput ["n", "n"]).1 ≠ "y" ∧
      Action.printMsg "http://x.com/m.pdf" ∈
        (handleBest (fun _ => .error "e") 1 "T" "http://x.com/m.pdf" ["n", "n"]).1 ∧
      Action.prompt PromptKind.browser ∈
        (handleBest (fun _ => .error "e") 1 "T" "http://x.com/m.pdf" ["n", "n"]).1 ∧
      (handleBest (fun _ => .error "e") 1 "T" "http://x.com/m.pdf" ["n", "n"]).2.1 =
        StepResult.ret "http://x.com/m.pdf") ∧
    ((3 / 10 : ℚ) ≤ 0.5 ∧
      Action.prompt PromptKind.download ∉
        (handleBest (fun _ => .error "e") (3 / 10) "T" "http://x.com/m.pdf" ["n"]).1 ∧
      Action.prompt PromptKind.browser ∈
        (handleBest (fun _ => .error "e") (3 / 10) "T" "http://x.com/m.pdf" ["n"]).1 ∧
      (handleBest (fun _ => .error "e") (3 / 10) "T" "http://x.com/m.pdf" ["n"]).2.1 =
        StepResult.ret "http://x.com/m.pdf") :=
  ⟨⟨by norm_num,
      (C6_close_match_threshold (fun _ => .error "e") 1 "T" "http://x.com/m.pdf"
        ["n", "n"]).1 (by norm_num)⟩,
    ⟨by decide,
      (C6_close_match_threshold (fun _ => .error "e") 1 "T" "http://x.com/m.pdf"
        ["n", "n"]).2.1 (by norm_num) (by decide)⟩,
    ⟨by norm_num,
      (C6_close_match_threshold (fun _ => .error "e") (3 / 10) "T" "http://x.com/m.pdf"
        ["n"]).2.2 (by norm_num)⟩⟩

/-- Claim C7: when the search returns zero results and the user declines the
retry, `find_manual` returns the no-results message and no download
(`requests.get`) is attempted. -/
theorem C7_no_results_no_download (fuel : Nat) (make model : String)
    (hm : make ≠ "") (hmo : model ≠ "")
    (search : String → List SearchResult) (hs : ∀ q, search q = [])
    (probe : String → Except String Nat)
    (resp : String → Except String (List Nat))
    (ans : String) (rest : List String) (hans : pyLower ans ≠ "y") :
    (find_manual (fuel + 1) make model search probe resp (ans :: rest)).2 =
      some "❌ No results found." ∧
    ∀ u, Action.httpGet u ∉
      (find_manual (fuel + 1) make model search probe resp (ans :: rest)).1 := by
  constructor
  · simp [find_manual, find_manual_step, readIfEmpty, hm, hmo, hs, popInput, hans]
  · intro u
    simp [find_manual, find_manual_step, readIfEmpty, hm, hmo, hs, popInput, hans]

theorem C7_no_results_no_download_witness :
    ("Trane" : String) ≠ "" ∧ pyLower "n" ≠ "y" ∧
    (find_manual 1 "Trane" "RTU-1234" (fun _ => []) (fun _ => .error "e")
        (fun _ => .error "e") ["n"]).2 = some "❌ No results found." ∧
    ∀ u, Action.httpGet u ∉
      (find_manual 1 "Trane" "RTU-1234" (fun _ => []) (fun _ => .error "e")
        (fun _ => .error "e") ["n"]).1 :=
  ⟨by decide, by decide,
    (C7_no_results_no_download 0 "Trane" "RTU-1234" (by decide) (by decide)
      (fun _ => []) (fun _ => rfl) (fun _ => .error "e") (fun _ => .error "e")
      "n" [] (by decide)).1,
    (C7_no_results_no_download 0 "Trane" "RTU-1234" (by decide) (by decide)
      (fun _ => []) (fun _ => rfl) (fun _ => .error "e") (fun _ => .error "e")
      "n" [] (by decide)).2⟩

/-- Claim C8 (amended): with no filename argument, the filename written
under the output directory is the basename of the URL's path, URL-decoded
(with the `"manual.pdf"` default when empty), then sanitised by replacing
spaces with underscores and removing parentheses — so the written name
contains no space and no parenthesis (the original claim's "stripping
spaces" does not hold: spaces become underscores). -/
theorem C8_download_filename_derivation (url : String) (body : List Nat)
    (inputs : List String) :
    ∃ f, f = sanitizeFilename (unquote
        (if basename (urlPath url) = "" then "manual.pdf" else basename (urlPath url))) ∧
      (download_file (.ok body) url none inputs).wrote = some f ∧
      Action.writeFile f ∈ (download_file (.ok body) url none inputs).actions ∧
      ' ' ∉ f.data ∧ '(' ∉ f.data ∧ ')' ∉ f.data :=
  ⟨_, rfl, (download_file_ok_shape url body inputs).1,
    (download_file_ok_shape url body inputs).2,
    sanitize_no_space _, sanitize_no_lparen _, sanitize_no_rparen _⟩

/-- Claim C8, counterexample to the "stripping spaces" reading: for the URL
`http://x.com/a%20b.pdf` the code writes `a_b.pdf` (space replaced by an
underscore), while stripping the space would give `ab.pdf`. -/
theorem C8_strip_spaces_refuted :
    (download_file (.ok [37, 80, 68, 70]) "http://x.com/a%20b.pdf" none []).wrote =
      some "a_b.pdf" ∧
    sanitizeFilename_stripSpec (unquote (basename (urlPath "http://x.com/a%20b.pdf"))) =
      "ab.pdf" ∧
    ("a_b.pdf" : String) ≠ "ab.pdf" := by
  refine ⟨?_, ?_, ?_⟩ <;> decide

/-- Claim C10: with no filename argument and a URL whose path has an empty
basename (e.g. ending in `/`), the file is written under the default name
`manual.pdf`. -/
theorem C10_empty_basename_defaults_manual_pdf (url : String) (body : List Nat)
    (inputs : List String) (h : basename (urlPath url) = "") :
    (download_file (.ok body) url none inputs).wrote = some "manual.pdf" := by
  rw [(download_file_ok_shape url body inputs).1, h]
  decide

theorem C10_empty_basename_defaults_manual_pdf_witness :
    basename (urlPath "http://x.com/docs/") = "" ∧
    (download_file (.ok [37, 80, 68, 70]) "http://x.com/docs/" none []).wrote =
      some "manual.pdf" :=
  ⟨by decide,
    C10_empty_basename_defaults_manual_pdf "http://x.com/docs/" [37, 80, 68, 70] []
      (by decide)⟩

/-- Claim C9: the trusted-domain +3 bonus is case-sensitive (the allowlist
entries are lowercase and matched exactly), the make +2 bonus is
case-insensitive, and a pair of URLs differing only in host letter case
gets scores differing by 3. -/
theorem C9_domain_score_case_sensitivity :
    (∀ url make, 3 ≤ domain_score url make ↔
      TRUSTED_DOMAINS.any (fun manuf => strIn manuf (netloc url)) = true) ∧
    domain_score "http://www.trane.com/x" "acme" = 3 ∧
    domain_score "http://WWW.TRANE.COM/x" "acme" = 0 ∧
    domain_score "http://WWW.TRANE.COM/x" "trane" = 2 ∧
    domain_score "http://www.trane.com/x" "trane" = 5 := by
  refine ⟨?_, by decide, by decide, by decide, by decide⟩
  intro url make
  unfold domain_score
  by_cases h1 : (TRUSTED_DOMAINS.any fun manuf => strIn manuf (netloc url)) = true <;>
    by_cases h2 : strIn (pyLower make) (pyLower (netloc url)) = true <;>
      simp [h1, h2]

end ManualFinder
